import Mathlib

/-!
Verification of the file-access simulation core: the three search-structure
backends (binary search tree, hash table, trie), the multi-level LRU cache,
and the simulation engine that drives workloads through them.

The definitions below are a shallow embedding of the TypeScript sources
`DataStructures.ts`, `CacheSimulator.ts` and `FileAccessSimulator.ts`:

* JS values that may be `null` are modelled as `Option V` (with `none` for
  `null`); a `value: any` field holding a possibly-null payload becomes
  `Option V`.
* `Map` objects are modelled as lists in insertion order; `Map.set` replaces
  an existing key in place (keeping its position) and otherwise appends,
  matching JS `Map` iteration-order semantics.
* Ambient effects are explicit parameters: every `Date.now()` read inside one
  engine-level operation is one `now : Nat` argument (JS `Date.now()` has
  millisecond granularity, so consecutive statements routinely observe the
  same value); `performance.now()` differences and `Math.random()` draws are
  rational-valued inputs, since none of the verified claims constrain them.
* JS 32-bit integer coercion (`| 0` / `&` / `<<`) is `jsInt32` on `Int`.
* String comparison: JS `<` compares UTF-16 code units, the Lean order
  compares characters; the two agree on all keys the program generates
  (ASCII paths), and the development only uses that the order is linear.
-/

namespace Sim

/-- JavaScript ToInt32: wrap an integer into the signed 32-bit range. -/
def jsInt32 (n : Int) : Int :=
  (n + 2 ^ 31) % 2 ^ 32 - 2 ^ 31

/-- Reference semantics of repeated insertion with overwrite: the value of
the last binding of `k` in the insertion sequence `ps`, if any.  All three
backends are proved to agree with this association-list view. -/
def lookupLast (ps : List (String × Option V)) (k : String) : Option (Option V) :=
  ps.foldl (fun acc e => if e.1 = k then some e.2 else acc) none

/-- Per-lookup result shape shared by the three backends, as in the source:
`{value, found, <cost metric>, latency}`. `cost` is the backend-specific
counter (BST comparisons, hash bucket size, trie node traversals). -/
structure SearchResult (V : Type) where
  value : Option V
  found : Bool
  cost : Nat
  latency : ℚ
  deriving DecidableEq

/-! ### Binary search tree (`DataStructures.ts`, `BSTNode` / `BinarySearchTree`) -/

/-- `BSTNode` with nullable children; `leaf` is the JS `null` child. -/
inductive BSTNode (V : Type) where
  | leaf
  | node (key : String) (value : Option V) (left right : BSTNode V)
  deriving DecidableEq

/-- `BinarySearchTree.insertNode`: descend by key comparison, overwrite the
value on an equal key. -/
def insertNode : BSTNode V → String → Option V → BSTNode V
  | .leaf, k, v => .node k v .leaf .leaf
  | .node key val l r, k, v =>
    if k < key then .node key val (insertNode l k v) r
    else if key < k then .node key val l (insertNode r k v)
    else .node key v l r

/-- `BinarySearchTree.searchNode`: returns the stored value (itself possibly
`null`) or `null` when the key is absent, together with the number of nodes
visited (the `comparisons` counter). -/
def searchNode : BSTNode V → String → Option V × Nat
  | .leaf, _ => (none, 0)
  | .node key val l r, k =>
    if k = key then (val, 1)
    else if k < key then
      let p := searchNode l k
      (p.1, p.2 + 1)
    else
      let p := searchNode r k
      (p.1, p.2 + 1)

/-- The `BinarySearchTree` object: root plus its public counters. -/
structure BinarySearchTree (V : Type) where
  root : BSTNode V
  accessCount : Nat
  comparisons : Nat

/-- A freshly constructed `BinarySearchTree` (root `null`, counters `0`). -/
def mkBST : BinarySearchTree V := ⟨.leaf, 0, 0⟩

/-- `BinarySearchTree.insert`. -/
def BinarySearchTree.insert (t : BinarySearchTree V) (k : String) (v : Option V) :
    BinarySearchTree V :=
  { t with root := insertNode t.root k v }

/-- `BinarySearchTree.search`: `found` is `result !== null`, i.e. the search
reports found only when the retrieved value is non-null.  The wall-clock
latency is an explicit input. -/
def BinarySearchTree.search (t : BinarySearchTree V) (k : String) (lat : ℚ) :
    SearchResult V × BinarySearchTree V :=
  let p := searchNode t.root k
  ({ value := p.1, found := p.1.isSome, cost := p.2, latency := lat },
   { t with accessCount := t.accessCount + 1, comparisons := p.2 })

/-! ### Hash table (`DataStructures.ts`, `HashTable`) -/

/-- The `HashTable` object.  The bucket array is modelled as a function from
bucket index to bucket (all buckets start empty). -/
structure HashTable (V : Type) where
  size : Nat
  buckets : Nat → List (String × Option V)
  accessCount : Nat
  collisions : Nat

/-- A freshly constructed `HashTable` of the given size (all buckets empty). -/
def mkHashTable (size : Nat) : HashTable V :=
  ⟨size, fun _ => [], 0, 0⟩

/-- `HashTable.hash` accumulation: `hash = ((hash << 5) - hash) + char` then
`hash = hash & hash` (32-bit coercion), folded over the character codes. -/
def hashString (key : String) : Int :=
  key.data.foldl (fun h c => jsInt32 (jsInt32 (h * 32) - h + (c.toNat : Int))) 0

/-- Bucket index: `Math.abs(hash) % size`. -/
def hashIdx (size : Nat) (key : String) : Nat :=
  (hashString key).natAbs % size

/-- `bucket.find(item => item.key === key)`: first binding of `k`. -/
def bucketFind : List (String × Option V) → String → Option (String × Option V)
  | [], _ => none
  | e :: rest, k => if e.1 = k then some e else bucketFind rest k

/-- In-bucket insert: overwrite the value of an existing binding in place,
otherwise push the new binding at the end of the bucket. -/
def bucketInsert : List (String × Option V) → String → Option V → List (String × Option V)
  | [], k, v => [(k, v)]
  | e :: rest, k, v => if e.1 = k then (k, v) :: rest else e :: bucketInsert rest k v

/-- `HashTable.insert`: update the bucket at the key's hash index; count a
collision when pushing into a non-empty bucket. -/
def HashTable.insert (t : HashTable V) (k : String) (v : Option V) : HashTable V :=
  let i := hashIdx t.size k
  let b := t.buckets i
  { t with
    buckets := Function.update t.buckets i (bucketInsert b k v),
    collisions :=
      if (bucketFind b k).isNone = true ∧ 0 < b.length then t.collisions + 1
      else t.collisions }

/-- `HashTable.search`: `found` is the truthiness of the located item — it is
`true` whenever the key is present, regardless of the stored value. -/
def HashTable.search (t : HashTable V) (k : String) (lat : ℚ) :
    SearchResult V × HashTable V :=
  let b := t.buckets (hashIdx t.size k)
  let item := bucketFind b k
  ({ value := match item with | some e => e.2 | none => none,
     found := item.isSome, cost := b.length, latency := lat },
   { t with accessCount := t.accessCount + 1 })

/-! ### Trie (`DataStructures.ts`, `TrieNode` / `Trie`) -/

/-- `TrieNode`: per-character child map (insertion-ordered association list),
end-of-word marker, stored value (`null` until a key terminates here). -/
inductive TrieNode (V : Type) where
  | mk (children : List (Char × TrieNode V)) (isEndOfWord : Bool) (value : Option V)

/-- `children.get(c)` (with `children.has(c) = (childGet ... ).isSome`). -/
def childGet : List (Char × TrieNode V) → Char → Option (TrieNode V)
  | [], _ => none
  | e :: rest, c => if e.1 = c then some e.2 else childGet rest c

/-- `children.set(c, n)`: replace in place or append, as a JS `Map` does. -/
def childSet : List (Char × TrieNode V) → Char → TrieNode V → List (Char × TrieNode V)
  | [], c, n => [(c, n)]
  | e :: rest, c, n => if e.1 = c then (c, n) :: rest else e :: childSet rest c n

/-- `Trie.insert` body: walk the key characters, creating missing children,
then mark the terminal node and store the value. -/
def trieInsertNode : List Char → Option V → TrieNode V → TrieNode V
  | [], v, .mk ch _ _ => .mk ch true v
  | c :: cs, v, .mk ch e val =>
    let child := match childGet ch c with
      | some n => n
      | none => .mk [] false none
    .mk (childSet ch c (trieInsertNode cs v child)) e val

/-- `Trie.search` body: walk the key characters; an absent child is an early
not-found; at the terminal node, found = `isEndOfWord` and the value is
returned only when the marker is set.  The third component counts node
traversals. -/
def trieSearchNode : List Char → TrieNode V → Bool × Option V × Nat
  | [], .mk _ e val => (e, if e then val else none, 0)
  | c :: cs, .mk ch _ _ =>
    match childGet ch c with
    | none => (false, none, 1)
    | some n =>
      let r := trieSearchNode cs n
      (r.1, r.2.1, r.2.2 + 1)

/-- The found/value view of `trieSearchNode` (the traversal count stripped);
used to state the agreement lemmas. -/
def trieFV : List Char → TrieNode V → Bool × Option V
  | [], .mk _ e val => (e, if e then val else none)
  | c :: cs, .mk ch _ _ =>
    match childGet ch c with
    | none => (false, none)
    | some n => trieFV cs n

/-- The `Trie` object: root plus its public counters. -/
structure Trie (V : Type) where
  root : TrieNode V
  accessCount : Nat
  nodeTraversals : Nat

/-- A freshly constructed `Trie` (fresh root node, counters `0`). -/
def mkTrie : Trie V := ⟨.mk [] false none, 0, 0⟩

/-- `Trie.insert`. -/
def Trie.insert (t : Trie V) (k : String) (v : Option V) : Trie V :=
  { t with root := trieInsertNode k.data v t.root }

/-- `Trie.search`. -/
def Trie.search (t : Trie V) (k : String) (lat : ℚ) : SearchResult V × Trie V :=
  let r := trieSearchNode k.data t.root
  ({ value := r.2.1, found := r.1, cost := r.2.2, latency := lat },
   { t with accessCount := t.accessCount + 1, nodeTraversals := r.2.2 })

/-! ### Building each backend from a common dataset -/

/-- Insert a dataset (in order) into a fresh `BinarySearchTree`. -/
def buildBST (ps : List (String × Option V)) : BinarySearchTree V :=
  ps.foldl (fun t e => t.insert e.1 e.2) mkBST

/-- Insert a dataset (in order) into a fresh `HashTable` of the given size. -/
def buildHash (size : Nat) (ps : List (String × Option V)) : HashTable V :=
  ps.foldl (fun t e => t.insert e.1 e.2) (mkHashTable size)

/-- Insert a dataset (in order) into a fresh `Trie`. -/
def buildTrie (ps : List (String × Option V)) : Trie V :=
  ps.foldl (fun t e => t.insert e.1 e.2) mkTrie

/-- Query the BST built from `ps` (the latency input is irrelevant to the
found/value outcome and fixed at 0). -/
def bstQuery (ps : List (String × Option V)) (k : String) : SearchResult V :=
  ((buildBST ps).search k 0).1

/-- Query the hash table built from `ps`. -/
def hashQuery (size : Nat) (ps : List (String × Option V)) (k : String) : SearchResult V :=
  ((buildHash size ps).search k 0).1

/-- Query the trie built from `ps`. -/
def trieQuery (ps : List (String × Option V)) (k : String) : SearchResult V :=
  ((buildTrie ps).search k 0).1

/-! ### Cache level (`CacheSimulator.ts`, `CacheEntry` / `CacheLevel`) -/

/-- `CacheEntry`: key, possibly-null value, last-access `Date.now()`
timestamp (milliseconds), access count. -/
structure CacheEntry (V : Type) where
  key : String
  value : Option V
  timestamp : Nat
  accessCount : Nat
  deriving DecidableEq

/-- Result of `CacheLevel.get`. -/
structure CacheGetResult (V : Type) where
  hit : Bool
  value : Option V
  latency : ℚ
  deriving DecidableEq

/-- `CacheLevel`: its `Map` in insertion order, the constructor-supplied
capacity (stored unvalidated, exactly as in the source constructor), and the
hit/miss/eviction counters. -/
structure CacheLevel (V : Type) where
  cache : List (CacheEntry V)
  capacity : Int
  hits : Nat
  misses : Nat
  evictions : Nat
  deriving DecidableEq

/-- The `CacheLevel` constructor: it stores the capacity with no validation. -/
def mkCacheLevel (capacity : Int) : CacheLevel V :=
  ⟨[], capacity, 0, 0, 0⟩

/-- `Map.get` as lookup: the (unique) entry stored under `k`. -/
def entriesFind : List (CacheEntry V) → String → Option (CacheEntry V)
  | [], _ => none
  | e :: rest, k => if e.key = k then some e else entriesFind rest k

/-- `this.cache.has(key)`. -/
def CacheLevel.hasKey (c : CacheLevel V) (k : String) : Bool :=
  (entriesFind c.cache k).isSome

/-- Mutate the entry stored under `k` in place (JS object mutation through
`Map.get`). -/
def entriesUpdate : List (CacheEntry V) → String → (CacheEntry V → CacheEntry V) →
    List (CacheEntry V)
  | [], _, _ => []
  | e :: rest, k, f => if e.key = k then f e :: rest else e :: entriesUpdate rest k f

/-- `Map.set`: replace an existing key in place, otherwise append. -/
def entriesSet : List (CacheEntry V) → CacheEntry V → List (CacheEntry V)
  | [], x => [x]
  | e :: rest, x => if e.key = x.key then x :: rest else e :: entriesSet rest x

/-- `Map.delete`. -/
def entriesDelete : List (CacheEntry V) → String → List (CacheEntry V)
  | [], _ => []
  | e :: rest, k => if e.key = k then rest else e :: entriesDelete rest k

/-- The eviction scan of `CacheLevel.put`: `oldestKey` starts as the empty
string and `oldestTime` as the current `Date.now()`; an entry is selected
only when its timestamp is strictly smaller than the running minimum. -/
def findOldest (l : List (CacheEntry V)) (now : Nat) : String × Nat :=
  l.foldl (fun acc e => if e.timestamp < acc.2 then (e.key, e.timestamp) else acc)
    ("", now)

/-- `CacheLevel.get`: on a hit, bump the hit counter and refresh the entry's
access count and timestamp; on a miss, bump the miss counter.  The
`performance.now()` difference is the explicit `lat` input. -/
def CacheLevel.get (c : CacheLevel V) (k : String) (now : Nat) (lat : ℚ) :
    CacheGetResult V × CacheLevel V :=
  match entriesFind c.cache k with
  | some e =>
    ({ hit := true, value := e.value, latency := lat },
     { c with hits := c.hits + 1,
              cache := entriesUpdate c.cache k
                (fun x => { x with accessCount := x.accessCount + 1, timestamp := now }) })
  | none =>
    ({ hit := false, value := none, latency := lat },
     { c with misses := c.misses + 1 })

/-- `CacheLevel.put`: when at (or beyond) capacity and the key is new, scan
for the oldest entry and delete it — but only when the scan selected a
non-empty key — then `Map.set` the new entry. -/
def CacheLevel.put (c : CacheLevel V) (k : String) (v : Option V) (now : Nat) :
    CacheLevel V :=
  let entry : CacheEntry V := ⟨k, v, now, 1⟩
  let c1 :=
    if (c.cache.length : Int) ≥ c.capacity ∧ c.hasKey k = false then
      let old := findOldest c.cache now
      if old.1 ≠ "" then
        { c with cache := entriesDelete c.cache old.1, evictions := c.evictions + 1 }
      else c
    else c
  { c1 with cache := entriesSet c1.cache entry }

/-- `CacheLevel.reset`. -/
def CacheLevel.reset (c : CacheLevel V) : CacheLevel V :=
  { c with cache := [], hits := 0, misses := 0, evictions := 0 }

/-- `CacheLevel.getStats` snapshot.  (Rational division by zero is `0` in the
model where JS would produce `Infinity`/`NaN` for a zero capacity; no claim
depends on `utilization`.) -/
structure CacheLevelStats where
  hits : Nat
  misses : Nat
  hitRate : ℚ
  missRate : ℚ
  utilization : ℚ
  evictions : Nat
  size : Nat
  capacity : Int
  deriving DecidableEq

/-- `CacheLevel.getStats`. -/
def CacheLevel.getStats (c : CacheLevel V) : CacheLevelStats :=
  let total := c.hits + c.misses
  { hits := c.hits, misses := c.misses,
    hitRate := if 0 < total then (c.hits : ℚ) / (total : ℚ) * 100 else 0,
    missRate := if 0 < total then (c.misses : ℚ) / (total : ℚ) * 100 else 0,
    utilization := (c.cache.length : ℚ) / (c.capacity : ℚ) * 100,
    evictions := c.evictions, size := c.cache.length, capacity := c.capacity }

/-! ### Multi-level cache (`CacheSimulator.ts`, `MultiLevelCache`) -/

/-- One engine-level cache access consumes these ambient values: the three
per-level `performance.now()` differences and the four `Math.random()` draws
feeding the latency bands (L1, L2, L3, memory). -/
structure AccessEnv where
  l1Lat : ℚ
  l2Lat : ℚ
  l3Lat : ℚ
  r1 : ℚ
  r2 : ℚ
  r3 : ℚ
  r4 : ℚ
  deriving DecidableEq

/-- An `AccessEnv` with every ambient value zero. -/
def zeroEnv : AccessEnv := ⟨0, 0, 0, 0, 0, 0, 0⟩

/-- `simulateLatency`: a uniform draw `r` from a cycle band, converted to
milliseconds at 1 GHz. -/
def simulateLatency (minCycles maxCycles r : ℚ) : ℚ :=
  (r * (maxCycles - minCycles) + minCycles) * (1 / 1000)

/-- Result of `MultiLevelCache.get`. -/
structure MLCGetResult (V : Type) where
  value : Option V
  hit : Bool
  level : String
  totalLatency : ℚ
  deriving DecidableEq

/-- `MultiLevelCache`: three `CacheLevel`s plus the access counter. -/
structure MultiLevelCache (V : Type) where
  l1 : CacheLevel V
  l2 : CacheLevel V
  l3 : CacheLevel V
  memoryAccesses : Nat
  deriving DecidableEq

/-- The `MultiLevelCache` constructor: capacities 32 / 256 / 2048. -/
def mkMultiLevelCache : MultiLevelCache V :=
  ⟨mkCacheLevel 32, mkCacheLevel 256, mkCacheLevel 2048, 0⟩

/-- `MultiLevelCache.get`: probe L1, then L2 (promoting into L1 on a hit),
then L3 (promoting into L2 and L1), and finally report a `Memory` miss with
the main-memory latency band added. -/
def MultiLevelCache.get (m : MultiLevelCache V) (k : String) (now : Nat)
    (env : AccessEnv) : MLCGetResult V × MultiLevelCache V :=
  let (r1, l1') := m.l1.get k now env.l1Lat
  let t1 := r1.latency + simulateLatency 1 2 env.r1
  if r1.hit then
    ({ value := r1.value, hit := true, level := "L1", totalLatency := t1 },
     { m with l1 := l1', memoryAccesses := m.memoryAccesses + 1 })
  else
    let (r2, l2') := m.l2.get k now env.l2Lat
    let t2 := t1 + (r2.latency + simulateLatency 10 20 env.r2)
    if r2.hit then
      ({ value := r2.value, hit := true, level := "L2", totalLatency := t2 },
       { m with l1 := l1'.put k r2.value now, l2 := l2',
                memoryAccesses := m.memoryAccesses + 1 })
    else
      let (r3, l3') := m.l3.get k now env.l3Lat
      let t3 := t2 + (r3.latency + simulateLatency 40 75 env.r3)
      if r3.hit then
        ({ value := r3.value, hit := true, level := "L3", totalLatency := t3 },
         { m with l1 := l1'.put k r3.value now, l2 := l2'.put k r3.value now,
                  l3 := l3', memoryAccesses := m.memoryAccesses + 1 })
      else
        ({ value := none, hit := false, level := "Memory",
           totalLatency := t3 + simulateLatency 200 300 env.r4 },
         { m with l1 := l1', l2 := l2', l3 := l3',
                  memoryAccesses := m.memoryAccesses + 1 })

/-- `MultiLevelCache.put`: write-through into every tier. -/
def MultiLevelCache.put (m : MultiLevelCache V) (k : String) (v : Option V)
    (now : Nat) : MultiLevelCache V :=
  { m with l1 := m.l1.put k v now, l2 := m.l2.put k v now, l3 := m.l3.put k v now }

/-- `MultiLevelCache.reset`. -/
def MultiLevelCache.reset (m : MultiLevelCache V) : MultiLevelCache V :=
  ⟨m.l1.reset, m.l2.reset, m.l3.reset, 0⟩

/-- `MultiLevelCache.getOverallStats` snapshot. -/
structure OverallStats where
  l1 : CacheLevelStats
  l2 : CacheLevelStats
  l3 : CacheLevelStats
  hitRate : ℚ
  missRate : ℚ
  memoryAccesses : Nat
  totalAccesses : Nat
  deriving DecidableEq

/-- `MultiLevelCache.getOverallStats`: only L3 misses count as true misses. -/
def MultiLevelCache.getOverallStats (m : MultiLevelCache V) : OverallStats :=
  let totalHits := m.l1.hits + m.l2.hits + m.l3.hits
  let totalMisses := m.l3.misses
  let totalAccesses := totalHits + totalMisses
  { l1 := m.l1.getStats, l2 := m.l2.getStats, l3 := m.l3.getStats,
    hitRate := if 0 < totalAccesses then (totalHits : ℚ) / (totalAccesses : ℚ) * 100 else 0,
    missRate := if 0 < totalAccesses then (totalMisses : ℚ) / (totalAccesses : ℚ) * 100 else 0,
    memoryAccesses := m.memoryAccesses, totalAccesses := totalAccesses }

/-! ### Simulation engine (`FileAccessSimulator.ts`) -/

/-- The `SimulationResult` record.  `structureId` is the `structure` field of
the source (renamed: `structure` is a Lean keyword); rates and latencies are
exact rationals. -/
structure SimulationResult where
  structureId : String
  hitRate : ℚ
  missRate : ℚ
  avgLatency : ℚ
  maxLatency : ℚ
  minLatency : ℚ
  throughput : ℚ
  cacheStats : OverallStats
  operationsPerformed : Nat
  totalTime : ℚ
  deriving DecidableEq

/-- The `FileAccessSimulator` object state: the three populated backends, the
cache, and the cooperative-cancellation flag.  The random record corpus and
access sequence are inputs to `runSimulation` (their generation draws on
ambient randomness and fixes no property any claim depends on). -/
structure FileAccessSimulator (V : Type) where
  bst : BinarySearchTree V
  hashTable : HashTable V
  trie : Trie V
  cache : MultiLevelCache V
  isRunning : Bool

/-- `getOperationCount`: structure identifiers are strings at runtime, so the
switch carries a `default` branch returning the `Small` count. -/
def getOperationCount (workloadSize : String) : Nat :=
  if workloadSize = "Small" then 1000
  else if workloadSize = "Medium" then 5000
  else if workloadSize = "Large" then 10000
  else 1000

/-- `searchInStructure`: dispatch on the structure identifier; an unknown
identifier throws `Unknown structure: ...`. -/
def searchInStructure (structId : String) (sim : FileAccessSimulator V)
    (k : String) (lat : ℚ) :
    Except String (SearchResult V × FileAccessSimulator V) :=
  if structId = "BST" then
    let r := sim.bst.search k lat
    .ok (r.1, { sim with bst := r.2 })
  else if structId = "Hash" then
    let r := sim.hashTable.search k lat
    .ok (r.1, { sim with hashTable := r.2 })
  else if structId = "Trie" then
    let r := sim.trie.search k lat
    .ok (r.1, { sim with trie := r.2 })
  else
    .error ("Unknown structure: " ++ structId)

/-- Mutable state of the `runSimulation` loop. -/
structure LoopState (V : Type) where
  sim : FileAccessSimulator V
  hits : Nat
  misses : Nat
  latencies : List ℚ

/-- One iteration of the run loop: probe the cache; on a hit record the cache
latency; on a miss query the backend (which may throw on an unknown structure
identifier, with the cache's miss-path mutations already applied), insert the
resolved value into the cache when found, and record the combined latency. -/
def simStep (structId : String) (st : LoopState V) (op : String) (now : Nat)
    (env : AccessEnv) (slat : ℚ) : Option String × LoopState V :=
  let (cres, cache') := st.sim.cache.get op now env
  let sim1 := { st.sim with cache := cache' }
  if cres.hit then
    (none, { st with sim := sim1, hits := st.hits + 1,
                     latencies := cres.totalLatency :: st.latencies })
  else
    match searchInStructure structId sim1 op slat with
    | .error e => (some e, { st with sim := sim1 })
    | .ok (sres, sim2) =>
      let sim3 :=
        if sres.found then { sim2 with cache := sim2.cache.put op sres.value now }
        else sim2
      (none, { st with sim := sim3, misses := st.misses + 1,
                       latencies := (cres.totalLatency + sres.latency) :: st.latencies })

/-- The run loop over the (possibly cancellation-truncated) operation list;
`i` indexes the ambient streams.  A thrown error carries the state at the
point of the throw (the JS simulator object keeps its mutations). -/
def runLoop (structId : String) (st : LoopState V) (ops : List String) (i : Nat)
    (tms : Nat → Nat) (envs : Nat → AccessEnv) (slats : Nat → ℚ) :
    Option String × LoopState V :=
  match ops with
  | [] => (none, st)
  | op :: rest =>
    match simStep structId st op (tms i) (envs i) (slats i) with
    | (some e, st') => (some e, st')
    | (none, st') => runLoop structId st' rest (i + 1) tms envs slats

/-- Sum of a latency list (`reduce((a, b) => a + b, 0)`). -/
def listSum (l : List ℚ) : ℚ := l.foldl (fun a b => a + b) 0

/-- `Math.max(...l)` guarded by the source's emptiness check (`0` when empty). -/
def listMax : List ℚ → ℚ
  | [] => 0
  | x :: xs => xs.foldl max x

/-- `Math.min(...l)` guarded by the source's emptiness check (`0` when empty). -/
def listMin : List ℚ → ℚ
  | [] => 0
  | x :: xs => xs.foldl min x

/-- Assembly of the returned `SimulationResult` from the final counters,
latency samples, cache snapshot and elapsed wall time. -/
def mkSimulationResult (structId : String) (hits misses : Nat) (lats : List ℚ)
    (stats : OverallStats) (totalTime : ℚ) : SimulationResult :=
  let total := hits + misses
  { structureId := structId,
    hitRate := if 0 < total then (hits : ℚ) / (total : ℚ) * 100 else 0,
    missRate := if 0 < total then (misses : ℚ) / (total : ℚ) * 100 else 0,
    avgLatency := if 0 < lats.length then listSum lats / (lats.length : ℚ) else 0,
    maxLatency := listMax lats,
    minLatency := listMin lats,
    throughput := if 0 < totalTime then (total : ℚ) / totalTime * 1000 else 0,
    cacheStats := stats,
    operationsPerformed := total,
    totalTime := totalTime }

/-- The loop phase of `runSimulation`: set the running flag, reset the cache,
generate the workload (`gen` applied to the configured operation count), and
run the loop over the first `steps` operations (`steps` is the iteration at
which cooperative cancellation is observed; a completed run has
`steps ≥` the workload length). -/
def simulationTrace (structId workloadSize : String) (sim : FileAccessSimulator V)
    (gen : Nat → List String) (steps : Nat) (tms : Nat → Nat)
    (envs : Nat → AccessEnv) (slats : Nat → ℚ) : Option String × LoopState V :=
  let sim0 := { sim with isRunning := true, cache := sim.cache.reset }
  runLoop structId ⟨sim0, 0, 0, []⟩ ((gen (getOperationCount workloadSize)).take steps)
    0 tms envs slats

/-- `runSimulation`: the loop phase followed by result assembly; a thrown
error propagates (first component) while the simulator object keeps the
mutations applied before the throw (second component).  `totalTime` is the
ambient `performance.now()` elapsed wall time. -/
def runSimulation (structId workloadSize : String) (sim : FileAccessSimulator V)
    (gen : Nat → List String) (steps : Nat) (tms : Nat → Nat)
    (envs : Nat → AccessEnv) (slats : Nat → ℚ) (totalTime : ℚ) :
    Except String SimulationResult × FileAccessSimulator V :=
  match simulationTrace structId workloadSize sim gen steps tms envs slats with
  | (some e, st) => (.error e, st.sim)
  | (none, st) =>
    (.ok (mkSimulationResult structId st.hits st.misses st.latencies
            st.sim.cache.getOverallStats totalTime),
     st.sim)

/-- `runRealtimeSimulation` runs the identical per-operation loop and result
assembly as `runSimulation`; it differs only in invoking a progress callback,
which never alters the loop state or the returned result, so its model is the
same function. -/
def runRealtimeSimulation (structId workloadSize : String)
    (sim : FileAccessSimulator V) (gen : Nat → List String) (steps : Nat)
    (tms : Nat → Nat) (envs : Nat → AccessEnv) (slats : Nat → ℚ)
    (totalTime : ℚ) : Except String SimulationResult × FileAccessSimulator V :=
  runSimulation structId workloadSize sim gen steps tms envs slats totalTime

/-! ### Concrete states used by witnesses and counterexamples -/

/-- A freshly constructed simulator over empty backends (the populated corpus
is irrelevant to the properties exercised on it). -/
def wSim : FileAccessSimulator Nat :=
  ⟨mkBST, mkHashTable 1000, mkTrie, mkMultiLevelCache, false⟩

/-- A simulator whose cache already holds the key `"x"` in every tier. -/
def cSim : FileAccessSimulator Nat :=
  { wSim with cache := MultiLevelCache.put mkMultiLevelCache "x" (some 3) 5 }

/-- Constant one-operation workload generator. -/
def wGen : Nat → List String := fun _ => ["x"]

/-- Zeroed ambient streams for concrete runs. -/
def wTms : Nat → Nat := fun _ => 0

/-- Zeroed access environments for concrete runs. -/
def wEnvs : Nat → AccessEnv := fun _ => zeroEnv

/-- Zeroed backend-latency stream for concrete runs. -/
def wSlats : Nat → ℚ := fun _ => 0

/-- A concrete one-operation `Hash` run with elapsed wall time 2 ms. -/
def wRun : Except String SimulationResult × FileAccessSimulator Nat :=
  runSimulation "Hash" "Small" wSim wGen 1 wTms wEnvs wSlats 2

/-- The result of `wRun` (its error branch is unreachable). -/
def wRes : SimulationResult :=
  match wRun.1 with
  | .ok r => r
  | .error _ => mkSimulationResult "" 0 0 [] (mkMultiLevelCache (V := Nat)).getOverallStats 0

/-- The same concrete run with a zero elapsed wall time (degenerate timing). -/
def w0Run : Except String SimulationResult × FileAccessSimulator Nat :=
  runSimulation "Hash" "Small" wSim wGen 1 wTms wEnvs wSlats 0

/-- The result of `w0Run` (its error branch is unreachable). -/
def w0Res : SimulationResult :=
  match w0Run.1 with
  | .ok r => r
  | .error _ => mkSimulationResult "" 0 0 [] (mkMultiLevelCache (V := Nat)).getOverallStats 0

/-- An empty multi-level cache. -/
def mlcW0 : MultiLevelCache Nat := mkMultiLevelCache

/-- A multi-level cache holding `"k"` in L1 only. -/
def mlcW1 : MultiLevelCache Nat :=
  { mkMultiLevelCache with l1 := (mkCacheLevel 32).put "k" (some 7) 0 }

/-- A multi-level cache holding `"k"` in L2 only. -/
def mlcW2 : MultiLevelCache Nat :=
  { mkMultiLevelCache with l2 := (mkCacheLevel 256).put "k" (some 7) 0 }

/-- A multi-level cache holding `"k"` in L3 only. -/
def mlcW3 : MultiLevelCache Nat :=
  { mkMultiLevelCache with l3 := (mkCacheLevel 2048).put "k" (some 7) 0 }

/-! ## Backend agreement with the association-list semantics -/

theorem lookupLast_append (ps : List (String × Option V)) (e : String × Option V)
    (k : String) :
    lookupLast (ps ++ [e]) k = if e.1 = k then some e.2 else lookupLast ps k := by
  simp [lookupLast, List.foldl_append]

theorem lookupLast_mem (ps : List (String × Option V)) (k : String) (v : Option V)
    (h : lookupLast ps k = some v) : (k, v) ∈ ps := by
  induction ps using List.reverseRecOn with
  | nil => simp [lookupLast] at h
  | append_singleton ps e ih =>
    rw [lookupLast_append] at h
    by_cases he : e.1 = k
    · rw [if_pos he] at h
      cases h
      simp [← he]
    · rw [if_neg he] at h
      simp [ih h]

theorem searchVal_insertNode (t : BSTNode V) (k k' : String) (v : Option V) :
    (searchNode (insertNode t k v) k').1 = if k' = k then v else (searchNode t k').1 := by
  induction t with
  | leaf =>
    by_cases h : k' = k
    · subst h; simp [insertNode, searchNode]
    · by_cases h2 : k' < k <;> simp [insertNode, searchNode, h, h2]
  | node key val l r ihl ihr =>
    rcases lt_trichotomy k key with h1 | h1 | h1
    · simp only [insertNode, if_pos h1]
      by_cases h2 : k' = key
      · subst h2
        have hne : k' ≠ k := ne_of_gt h1
        simp [searchNode, hne]
      · by_cases h3 : k' < key
        · simp [searchNode, h2, h3, ihl]
        · have h4 : key < k' := lt_of_le_of_ne (not_lt.mp h3) (Ne.symm h2)
          have hne : k' ≠ k := ne_of_gt (lt_trans h1 h4)
          simp [searchNode, h2, h3, hne]
    · subst h1
      simp only [insertNode, lt_irrefl, if_false]
      by_cases h2 : k' = k
      · subst h2; simp [searchNode]
      · by_cases h3 : k' < k <;> simp [searchNode, h2, h3]
    · have hn1 : ¬ k < key := lt_asymm h1
      simp only [insertNode, if_neg hn1, if_pos h1]
      by_cases h2 : k' = key
      · subst h2
        have hne : k' ≠ k := ne_of_lt h1
        simp [searchNode, hne]
      · by_cases h3 : k' < key
        · have hne : k' ≠ k := ne_of_lt (lt_trans h3 h1)
          simp [searchNode, h2, h3, hne]
        · simp [searchNode, h2, h3, ihr]

theorem foldl_bstInsert_root (ps : List (String × Option V)) (t : BinarySearchTree V) :
    (ps.foldl (fun s e => s.insert e.1 e.2) t).root
      = ps.foldl (fun n e => insertNode n e.1 e.2) t.root := by
  induction ps generalizing t with
  | nil => rfl
  | cons e rest ih =>
    rw [List.foldl_cons, List.foldl_cons, ih]
    rfl

theorem searchVal_buildBST (ps : List (String × Option V)) (k : String) :
    (searchNode (buildBST ps).root k).1 = (lookupLast ps k).getD none := by
  induction ps using List.reverseRecOn with
  | nil => simp [buildBST, mkBST, lookupLast, searchNode]
  | append_singleton ps e ih =>
    have hr : (buildBST (ps ++ [e])).root = insertNode (buildBST ps).root e.1 e.2 := by
      simp only [buildBST, List.foldl_append, List.foldl_cons, List.foldl_nil]
      rfl
    rw [hr, searchVal_insertNode, lookupLast_append]
    by_cases h : k = e.1
    · simp [h]
    · have h' : e.1 ≠ k := fun hh => h hh.symm
      simp [h, h', ih]

theorem bstQuery_value (ps : List (String × Option V)) (k : String) :
    (bstQuery ps k).value = (lookupLast ps k).getD none := by
  simp [bstQuery, BinarySearchTree.search, searchVal_buildBST]

theorem bstQuery_found (ps : List (String × Option V)) (k : String) :
    (bstQuery ps k).found = ((lookupLast ps k).getD none).isSome := by
  simp [bstQuery, BinarySearchTree.search, searchVal_buildBST]

theorem bucketFind_bucketInsert (b : List (String × Option V)) (k k' : String)
    (v : Option V) :
    bucketFind (bucketInsert b k v) k' = if k' = k then some (k, v) else bucketFind b k' := by
  induction b with
  | nil =>
    by_cases h : k' = k
    · subst h; simp [bucketInsert, bucketFind]
    · have h' : k ≠ k' := fun hh => h hh.symm
      simp [bucketInsert, bucketFind, h, h']
  | cons e rest ih =>
    by_cases he : e.1 = k
    · by_cases h : k' = k
      · subst h; simp [bucketInsert, bucketFind, he]
      · have h' : k ≠ k' := fun hh => h hh.symm
        have he' : e.1 ≠ k' := by rw [he]; exact h'
        simp [bucketInsert, bucketFind, he, h, h', he']
    · by_cases hk : e.1 = k'
      · have h : k' ≠ k := by rw [← hk]; exact he
        simp [bucketInsert, bucketFind, he, hk, h]
      · simp [bucketInsert, bucketFind, he, hk, ih]

theorem HashTable.insert_size (t : HashTable V) (k : String) (v : Option V) :
    (t.insert k v).size = t.size := rfl

theorem foldl_hashInsert_size (ps : List (String × Option V)) (t : HashTable V) :
    (ps.foldl (fun s e => s.insert e.1 e.2) t).size = t.size := by
  induction ps generalizing t with
  | nil => rfl
  | cons e rest ih => rw [List.foldl_cons, ih]; rfl

theorem bucketFind_hashInsert (t : HashTable V) (k k' : String) (v : Option V) :
    bucketFind ((t.insert k v).buckets (hashIdx t.size k')) k' =
      if k' = k then some (k, v)
      else bucketFind (t.buckets (hashIdx t.size k')) k' := by
  by_cases hi : hashIdx t.size k' = hashIdx t.size k
  · simp [HashTable.insert, Function.update_apply, hi, bucketFind_bucketInsert]
  · have hk : k' ≠ k := fun h => hi (by rw [h])
    simp [HashTable.insert, Function.update_apply, hi, hk]

theorem bucketFind_buildHash (size : Nat) (ps : List (String × Option V)) (k : String) :
    bucketFind ((buildHash size ps).buckets (hashIdx size k)) k
      = (lookupLast ps k).map (fun v => (k, v)) := by
  induction ps using List.reverseRecOn with
  | nil => simp [buildHash, mkHashTable, bucketFind, lookupLast]
  | append_singleton ps e ih =>
    have hb : buildHash size (ps ++ [e]) = (buildHash size ps).insert e.1 e.2 := by
      simp only [buildHash, List.foldl_append, List.foldl_cons, List.foldl_nil]
    have hsz : (buildHash size ps).size = size := foldl_hashInsert_size ps (mkHashTable size)
    rw [hb, lookupLast_append]
    have := bucketFind_hashInsert (buildHash size ps) e.1 k e.2
    rw [hsz] at this
    rw [this]
    by_cases h : k = e.1
    · simp [h]
    · have h' : e.1 ≠ k := fun hh => h hh.symm
      simp [h, h', ih]

theorem hashQuery_found (size : Nat) (ps : List (String × Option V)) (k : String) :
    (hashQuery size ps k).found = (lookupLast ps k).isSome := by
  have hsz : (buildHash size ps).size = size := foldl_hashInsert_size ps (mkHashTable size)
  simp only [hashQuery, HashTable.search, hsz, bucketFind_buildHash]
  cases lookupLast ps k <;> rfl

theorem hashQuery_value (size : Nat) (ps : List (String × Option V)) (k : String) :
    (hashQuery size ps k).value = (lookupLast ps k).getD none := by
  have hsz : (buildHash size ps).size = size := foldl_hashInsert_size ps (mkHashTable size)
  simp only [hashQuery, HashTable.search, hsz, bucketFind_buildHash]
  cases lookupLast ps k <;> rfl

theorem string_data_inj_iff (s t : String) : (s.data = t.data) ↔ s = t :=
  ⟨fun h => by cases s; cases t; exact congrArg String.mk h, fun h => by rw [h]⟩

theorem trieSearchNode_fv (cs : List Char) (t : TrieNode V) :
    ((trieSearchNode cs t).1, (trieSearchNode cs t).2.1) = trieFV cs t := by
  induction cs generalizing t with
  | nil => cases t; simp [trieSearchNode, trieFV]
  | cons c cs ih =>
    cases t with
    | mk ch e val =>
      simp only [trieSearchNode, trieFV]
      cases hcg : childGet ch c
      · simp
      · simpa using ih _

theorem childGet_childSet (l : List (Char × TrieNode V)) (c c' : Char) (n : TrieNode V) :
    childGet (childSet l c n) c' = if c' = c then some n else childGet l c' := by
  induction l with
  | nil =>
    by_cases h : c' = c
    · subst h; simp [childSet, childGet]
    · have h' : c ≠ c' := fun hh => h hh.symm
      simp [childSet, childGet, h, h']
  | cons e rest ih =>
    by_cases he : e.1 = c
    · by_cases h : c' = c
      · subst h; simp [childSet, childGet, he]
      · have h' : c ≠ c' := fun hh => h hh.symm
        have he' : e.1 ≠ c' := by rw [he]; exact h'
        simp [childSet, childGet, he, h, h', he']
    · by_cases hc : e.1 = c'
      · have h : c' ≠ c := by rw [← hc]; exact he
        simp [childSet, childGet, he, hc, h]
      · simp [childSet, childGet, he, hc, ih]

theorem trieFV_fresh (cs : List Char) :
    trieFV cs (TrieNode.mk ([] : List (Char × TrieNode V)) false none) = (false, none) := by
  cases cs <;> simp [trieFV, childGet]

theorem trieFV_insert (cs : List Char) (t : TrieNode V) (cs' : List Char)
    (v : Option V) :
    trieFV cs' (trieInsertNode cs v t) = if cs' = cs then (true, v) else trieFV cs' t := by
  induction cs generalizing t cs' with
  | nil =>
    cases t with
    | mk ch e val =>
      cases cs' with
      | nil => simp [trieInsertNode, trieFV]
      | cons c' rest =>
        simp only [trieInsertNode, trieFV]
        cases hcg : childGet ch c' <;> simp [hcg]
  | cons c cs ih =>
    cases t with
    | mk ch e val =>
      cases cs' with
      | nil => simp [trieInsertNode, trieFV]
      | cons c' rest =>
        by_cases hc : c' = c
        · subst hc
          simp only [trieInsertNode, trieFV, childGet_childSet, eq_self_iff_true,
            if_true]
          rw [ih]
          by_cases hr : rest = cs
          · simp [hr]
          · have hne : c' :: rest ≠ c' :: cs := by simp [hr]
            rw [if_neg hr, if_neg hne]
            cases hcg : childGet ch c'
            · simp [hcg, trieFV_fresh]
            · simp [hcg]
        · have hne : c' :: rest ≠ c :: cs := by simp [hc]
          simp only [trieInsertNode, trieFV, childGet_childSet, if_neg hc, if_neg hne]

theorem foldl_trieInsert_root (ps : List (String × Option V)) (t : Trie V) :
    (ps.foldl (fun s e => s.insert e.1 e.2) t).root
      = ps.foldl (fun n e => trieInsertNode e.1.data e.2 n) t.root := by
  induction ps generalizing t with
  | nil => rfl
  | cons e rest ih =>
    rw [List.foldl_cons, List.foldl_cons, ih]
    rfl

theorem trieFV_buildTrie (ps : List (String × Option V)) (k : String) :
    trieFV k.data (buildTrie ps).root
      = match lookupLast ps k with
        | some v => (true, v)
        | none => (false, none) := by
  induction ps using List.reverseRecOn with
  | nil =>
    simp only [buildTrie, List.foldl_nil, mkTrie, lookupLast, trieFV_fresh]
  | append_singleton ps e ih =>
    have hr : (buildTrie (ps ++ [e])).root = trieInsertNode e.1.data e.2 (buildTrie ps).root := by
      simp only [buildTrie, List.foldl_append, List.foldl_cons, List.foldl_nil]
      rfl
    rw [hr, trieFV_insert, lookupLast_append]
    by_cases h : k = e.1
    · have : k.data = e.1.data := by rw [h]
      simp [this, h]
    · have hd : k.data ≠ e.1.data := fun hh => h ((string_data_inj_iff k e.1).mp hh)
      have h' : e.1 ≠ k := fun hh => h hh.symm
      simp [hd, h', ih]

theorem trieQuery_found (ps : List (String × Option V)) (k : String) :
    (trieQuery ps k).found = (lookupLast ps k).isSome := by
  have hfv := trieSearchNode_fv k.data (buildTrie ps).root
  have h1 : (trieSearchNode k.data (buildTrie ps).root).1
      = (trieFV k.data (buildTrie ps).root).1 := by rw [← hfv]
  simp only [trieQuery, Trie.search, h1, trieFV_buildTrie]
  cases lookupLast ps k <;> rfl

theorem trieQuery_value (ps : List (String × Option V)) (k : String) :
    (trieQuery ps k).value = (lookupLast ps k).getD none := by
  have hfv := trieSearchNode_fv k.data (buildTrie ps).root
  have h2 : (trieSearchNode k.data (buildTrie ps).root).2.1
      = (trieFV k.data (buildTrie ps).root).2 := by rw [← hfv]
  simp only [trieQuery, Trie.search, h2, trieFV_buildTrie]
  cases lookupLast ps k <;> rfl

/-! ## Claims C1 and C10: cross-backend agreement and BST found-semantics -/

/-- C1 (amended): for every dataset of key/value pairs all of whose values
are non-null, inserting the dataset identically into the BST, the hash table
and the trie and querying any key yields the same found/not-found outcome and
the same associated value from all three backends.  (The unrestricted claim
fails for null values, where the BST alone reports not-found; see the
counterexample.) -/
theorem cross_backend_agreement (size : Nat) (ps : List (String × Option V))
    (k : String) (hv : ∀ e ∈ ps, (e.2).isSome = true) :
    (bstQuery ps k).found = (hashQuery size ps k).found ∧
    (bstQuery ps k).value = (hashQuery size ps k).value ∧
    (trieQuery ps k).found = (hashQuery size ps k).found ∧
    (trieQuery ps k).value = (hashQuery size ps k).value := by
  rw [bstQuery_found, bstQuery_value, hashQuery_found, hashQuery_value,
    trieQuery_found, trieQuery_value]
  refine ⟨?_, rfl, rfl, rfl⟩
  cases hl : lookupLast ps k with
  | none => rfl
  | some v =>
    have hs := hv (k, v) (lookupLast_mem ps k v hl)
    cases v with
    | none => simp at hs
    | some x => rfl

/-- Witness for C1: a concrete non-null dataset on which all three backends
agree. -/
theorem cross_backend_agreement_witness :
    (bstQuery (V := Nat) [("a", some 1), ("b", some 2)] "a").found
        = (hashQuery (V := Nat) 1000 [("a", some 1), ("b", some 2)] "a").found ∧
    (bstQuery (V := Nat) [("a", some 1), ("b", some 2)] "a").value
        = (hashQuery (V := Nat) 1000 [("a", some 1), ("b", some 2)] "a").value ∧
    (trieQuery (V := Nat) [("a", some 1), ("b", some 2)] "a").found
        = (hashQuery (V := Nat) 1000 [("a", some 1), ("b", some 2)] "a").found ∧
    (trieQuery (V := Nat) [("a", some 1), ("b", some 2)] "a").value
        = (hashQuery (V := Nat) 1000 [("a", some 1), ("b", some 2)] "a").value :=
  cross_backend_agreement 1000 [("a", some 1), ("b", some 2)] "a" (by decide)

/-- Counterexample to C1 as stated: for the dataset `[("a", null)]` the BST
reports not-found while the hash table and the trie report found, so the
three backends do not agree on every dataset. -/
theorem cross_backend_disagreement_null :
    (bstQuery (V := Nat) [("a", none)] "a").found = false ∧
    (hashQuery (V := Nat) 1000 [("a", none)] "a").found = true ∧
    (trieQuery (V := Nat) [("a", none)] "a").found = true ∧
    ¬ ((bstQuery (V := Nat) [("a", none)] "a").found
        = (hashQuery (V := Nat) 1000 [("a", none)] "a").found) := by
  decide

/-- C10: BST search reports found exactly when the value stored under the
queried key is non-null, while the hash table and the trie report found
exactly when the key is present; consequently a key inserted with a null
value is reported not-found by the BST but found by the other two. -/
theorem bst_found_nonnull_semantics (size : Nat) (ps : List (String × Option V))
    (k : String) :
    (bstQuery ps k).found = ((lookupLast ps k).getD none).isSome ∧
    (hashQuery size ps k).found = (lookupLast ps k).isSome ∧
    (trieQuery ps k).found = (lookupLast ps k).isSome ∧
    (lookupLast ps k = some none →
      (bstQuery ps k).found = false ∧ (hashQuery size ps k).found = true ∧
      (trieQuery ps k).found = true) := by
  refine ⟨bstQuery_found ps k, hashQuery_found size ps k, trieQuery_found ps k, ?_⟩
  intro h
  rw [bstQuery_found, hashQuery_found, trieQuery_found, h]
  exact ⟨rfl, rfl, rfl⟩

/-- Witness for C10: the key `"a"` inserted with a null value. -/
theorem bst_found_nonnull_semantics_witness :
    (bstQuery (V := Nat) [("a", none)] "a").found = false ∧
    (hashQuery (V := Nat) 5 [("a", none)] "a").found = true ∧
    (trieQuery (V := Nat) [("a", none)] "a").found = true :=
  (bst_found_nonnull_semantics 5 [("a", none)] "a").2.2.2 (by decide)

/-! ## Claims C3, C4, C7: cache-level capacity and LRU eviction

`Date.now()` has millisecond granularity, so consecutive `put` calls in the
same event-loop turn observe the same timestamp; the eviction scan compares
timestamps with a strict `<` against the current `Date.now()` and only
deletes when it selected a non-empty key, so such a `put` skips eviction
entirely while still inserting. -/

/-- C3 (code evaluated at the failing input): two `put`s of distinct keys in
the same millisecond into a capacity-1 `CacheLevel` evict nothing and leave
two stored entries, exceeding the capacity — the occupancy invariant and the
evict-exactly-one behaviour both fail. -/
theorem cacheLevel_capacity_overflow :
    (let c := ((mkCacheLevel (V := Nat) 1).put "a" (some 1) 0).put "b" (some 2) 0
     c.cache.length = 2 ∧ c.capacity = 1 ∧ c.evictions = 0) := by
  decide

/-- C4 (code evaluated at the failing input): on a capacity-4 `CacheLevel`,
putting A, B, C, D, E in order within one millisecond (the realistic timing
of five consecutive inserts) evicts nothing: A is still present and all five
entries are stored. -/
theorem lru_scenario_same_millisecond :
    (let c := (((((mkCacheLevel (V := Nat) 4).put "A" (some 1) 0).put "B" (some 2) 0).put
          "C" (some 3) 0).put "D" (some 4) 0).put "E" (some 5) 0
     c.hasKey "A" = true ∧ c.cache.length = 5 ∧ c.evictions = 0) := by
  decide

/-- For contrast with the failing scenario: when the five puts carry strictly
increasing millisecond timestamps, the eviction scan does select the
first-inserted key, and B–E alone remain. -/
theorem lru_scenario_distinct_milliseconds :
    (let c := (((((mkCacheLevel (V := Nat) 4).put "A" (some 1) 0).put "B" (some 2) 1).put
          "C" (some 3) 2).put "D" (some 4) 3).put "E" (some 5) 4
     c.hasKey "A" = false ∧ c.hasKey "B" = true ∧ c.hasKey "C" = true ∧
     c.hasKey "D" = true ∧ c.hasKey "E" = true ∧ c.cache.length = 4 ∧
     c.evictions = 1) := by
  decide

/-- Counterexample to C7 as stated: the `CacheLevel` constructor performs no
validation — a level with capacity 0 is constructed without error and is
operational (a put stores an entry, immediately exceeding the capacity). -/
theorem cacheLevel_zero_capacity_constructed :
    (mkCacheLevel (V := Nat) 0).capacity = 0 ∧
    ((mkCacheLevel (V := Nat) 0).put "k" (some 1) 0).cache.length = 1 := by
  decide

/-- C7 (amended): the constructor does not validate its capacity argument,
but every `CacheLevel` the program itself constructs comes from the
`MultiLevelCache` constructor with the positive capacities 32, 256, 2048. -/
theorem mlc_level_capacities_positive :
    (mkMultiLevelCache (V := Nat)).l1.capacity = 32 ∧
    (mkMultiLevelCache (V := Nat)).l2.capacity = 256 ∧
    (mkMultiLevelCache (V := Nat)).l3.capacity = 2048 ∧
    0 < (mkMultiLevelCache (V := Nat)).l1.capacity ∧
    0 < (mkMultiLevelCache (V := Nat)).l2.capacity ∧
    0 < (mkMultiLevelCache (V := Nat)).l3.capacity := by
  decide

/-! ## Claims C5 and C6: multi-level lookup, promotion and write-through -/

theorem cacheLevel_get_hit (c : CacheLevel V) (k : String) (now : Nat) (lat : ℚ)
    (e : CacheEntry V) (h : entriesFind c.cache k = some e) :
    c.get k now lat =
      ({ hit := true, value := e.value, latency := lat },
       { c with hits := c.hits + 1,
                cache := entriesUpdate c.cache k
                  (fun x => { x with accessCount := x.accessCount + 1,
                                     timestamp := now }) }) := by
  simp [CacheLevel.get, h]

theorem cacheLevel_get_miss (c : CacheLevel V) (k : String) (now : Nat) (lat : ℚ)
    (h : entriesFind c.cache k = none) :
    c.get k now lat =
      ({ hit := false, value := none, latency := lat },
       { c with misses := c.misses + 1 }) := by
  simp [CacheLevel.get, h]

theorem entriesFind_entriesSet_self (l : List (CacheEntry V)) (x : CacheEntry V)
    (k : String) (hk : x.key = k) :
    entriesFind (entriesSet l x) k = some x := by
  induction l with
  | nil => simp [entriesSet, entriesFind, hk]
  | cons e rest ih =>
    by_cases he : e.key = x.key
    · simp [entriesSet, entriesFind, he, hk]
    · have hek : e.key ≠ k := by rw [← hk]; exact he
      simp [entriesSet, entriesFind, he, hek, ih]

theorem cacheLevel_put_hasKey (c : CacheLevel V) (k : String) (v : Option V)
    (now : Nat) : (c.put k v now).hasKey k = true := by
  unfold CacheLevel.put CacheLevel.hasKey
  rw [entriesFind_entriesSet_self _ _ _ rfl]
  rfl

theorem cacheLevel_put_below (c : CacheLevel V) (k : String) (v : Option V)
    (now : Nat) (h : ¬ ((c.cache.length : Int) ≥ c.capacity ∧ c.hasKey k = false)) :
    c.put k v now = { c with cache := entriesSet c.cache ⟨k, v, now, 1⟩ } := by
  rw [CacheLevel.put, if_neg h]

theorem cacheLevel_put_on_empty (c : CacheLevel V) (k : String) (v : Option V)
    (now : Nat) (hc : c.cache = []) (hcap : 0 < c.capacity) :
    c.put k v now = { c with cache := [⟨k, v, now, 1⟩] } := by
  have h : ¬ ((c.cache.length : Int) ≥ c.capacity ∧ c.hasKey k = false) := by
    intro hh
    have h1 := hh.1
    rw [hc] at h1
    simp at h1
    omega
  rw [cacheLevel_put_below c k v now h, hc]
  rfl

theorem mlcGet_l1_hit (m : MultiLevelCache V) (k : String) (now : Nat)
    (env : AccessEnv) (e : CacheEntry V) (h : entriesFind m.l1.cache k = some e) :
    m.get k now env =
      ({ value := e.value, hit := true, level := "L1",
         totalLatency := env.l1Lat + simulateLatency 1 2 env.r1 },
       { m with
         l1 := { m.l1 with
                 hits := m.l1.hits + 1,
                 cache := entriesUpdate m.l1.cache k (fun x =>
                   { x with accessCount := x.accessCount + 1, timestamp := now }) },
         memoryAccesses := m.memoryAccesses + 1 }) := by
  simp [MultiLevelCache.get, cacheLevel_get_hit m.l1 k now env.l1Lat e h]

theorem mlcGet_l2_hit (m : MultiLevelCache V) (k : String) (now : Nat)
    (env : AccessEnv) (e : CacheEntry V)
    (h1 : entriesFind m.l1.cache k = none) (h2 : entriesFind m.l2.cache k = some e) :
    m.get k now env =
      ({ value := e.value, hit := true, level := "L2",
         totalLatency := env.l1Lat + simulateLatency 1 2 env.r1
           + (env.l2Lat + simulateLatency 10 20 env.r2) },
       { m with
         l1 := ({ m.l1 with misses := m.l1.misses + 1 } : CacheLevel V).put k e.value now,
         l2 := { m.l2 with
                 hits := m.l2.hits + 1,
                 cache := entriesUpdate m.l2.cache k (fun x =>
                   { x with accessCount := x.accessCount + 1, timestamp := now }) },
         memoryAccesses := m.memoryAccesses + 1 }) := by
  simp [MultiLevelCache.get, cacheLevel_get_miss m.l1 k now env.l1Lat h1,
    cacheLevel_get_hit m.l2 k now env.l2Lat e h2]

theorem mlcGet_l3_hit (m : MultiLevelCache V) (k : String) (now : Nat)
    (env : AccessEnv) (e : CacheEntry V)
    (h1 : entriesFind m.l1.cache k = none) (h2 : entriesFind m.l2.cache k = none)
    (h3 : entriesFind m.l3.cache k = some e) :
    m.get k now env =
      ({ value := e.value, hit := true, level := "L3",
         totalLatency := env.l1Lat + simulateLatency 1 2 env.r1
           + (env.l2Lat + simulateLatency 10 20 env.r2)
           + (env.l3Lat + simulateLatency 40 75 env.r3) },
       { m with
         l1 := ({ m.l1 with misses := m.l1.misses + 1 } : CacheLevel V).put k e.value now,
         l2 := ({ m.l2 with misses := m.l2.misses + 1 } : CacheLevel V).put k e.value now,
         l3 := { m.l3 with
                 hits := m.l3.hits + 1,
                 cache := entriesUpdate m.l3.cache k (fun x =>
                   { x with accessCount := x.accessCount + 1, timestamp := now }) },
         memoryAccesses := m.memoryAccesses + 1 }) := by
  simp [MultiLevelCache.get, cacheLevel_get_miss m.l1 k now env.l1Lat h1,
    cacheLevel_get_miss m.l2 k now env.l2Lat h2,
    cacheLevel_get_hit m.l3 k now env.l3Lat e h3]

theorem mlcGet_memory (m : MultiLevelCache V) (k : String) (now : Nat)
    (env : AccessEnv)
    (h1 : entriesFind m.l1.cache k = none) (h2 : entriesFind m.l2.cache k = none)
    (h3 : entriesFind m.l3.cache k = none) :
    m.get k now env =
      ({ value := none, hit := false, level := "Memory",
         totalLatency := env.l1Lat + simulateLatency 1 2 env.r1
           + (env.l2Lat + simulateLatency 10 20 env.r2)
           + (env.l3Lat + simulateLatency 40 75 env.r3)
           + simulateLatency 200 300 env.r4 },
       { m with
         l1 := { m.l1 with misses := m.l1.misses + 1 },
         l2 := { m.l2 with misses := m.l2.misses + 1 },
         l3 := { m.l3 with misses := m.l3.misses + 1 },
         memoryAccesses := m.memoryAccesses + 1 }) := by
  simp [MultiLevelCache.get, cacheLevel_get_miss m.l1 k now env.l1Lat h1,
    cacheLevel_get_miss m.l2 k now env.l2Lat h2,
    cacheLevel_get_miss m.l3 k now env.l3Lat h3]

/-- C5: the lookup hierarchy.  An L1 hit answers at level `L1` and leaves L2
and L3 untouched; an L1 miss with an L2 hit answers at `L2`, copies the
stored value into L1 and leaves L3 untouched; an L3 hit answers at `L3` and
copies the value into both L2 and L1; a miss at every level answers
`hit = false` at level `Memory` with a null value and changes the stored
contents of no level. -/
theorem mlc_get_hierarchy (m : MultiLevelCache V) (k : String) (now : Nat)
    (env : AccessEnv) :
    (m.l1.hasKey k = true →
      (m.get k now env).1.hit = true ∧ (m.get k now env).1.level = "L1" ∧
      Option.map (fun e => e.value) (entriesFind m.l1.cache k)
          = some (m.get k now env).1.value ∧
      (m.get k now env).2.l2 = m.l2 ∧ (m.get k now env).2.l3 = m.l3) ∧
    (m.l1.hasKey k = false → m.l2.hasKey k = true →
      (m.get k now env).1.hit = true ∧ (m.get k now env).1.level = "L2" ∧
      Option.map (fun e => e.value) (entriesFind m.l2.cache k)
          = some (m.get k now env).1.value ∧
      (m.get k now env).2.l1.hasKey k = true ∧ (m.get k now env).2.l3 = m.l3) ∧
    (m.l1.hasKey k = false → m.l2.hasKey k = false → m.l3.hasKey k = true →
      (m.get k now env).1.hit = true ∧ (m.get k now env).1.level = "L3" ∧
      Option.map (fun e => e.value) (entriesFind m.l3.cache k)
          = some (m.get k now env).1.value ∧
      (m.get k now env).2.l1.hasKey k = true ∧
      (m.get k now env).2.l2.hasKey k = true) ∧
    (m.l1.hasKey k = false → m.l2.hasKey k = false → m.l3.hasKey k = false →
      (m.get k now env).1.hit = false ∧ (m.get k now env).1.level = "Memory" ∧
      (m.get k now env).1.value = none ∧
      (m.get k now env).2.l1.cache = m.l1.cache ∧
      (m.get k now env).2.l2.cache = m.l2.cache ∧
      (m.get k now env).2.l3.cache = m.l3.cache) := by
  refine ⟨?_, ?_, ?_, ?_⟩
  · intro h1
    obtain ⟨e, he⟩ := Option.isSome_iff_exists.mp h1
    rw [mlcGet_l1_hit m k now env e he, he]
    exact ⟨rfl, rfl, rfl, rfl, rfl⟩
  · intro h1 h2
    have h1' : entriesFind m.l1.cache k = none :=
      Option.not_isSome_iff_eq_none.mp (by rw [show (entriesFind m.l1.cache k).isSome = m.l1.hasKey k from rfl, h1]; exact Bool.false_ne_true)
    obtain ⟨e, he⟩ := Option.isSome_iff_exists.mp h2
    rw [mlcGet_l2_hit m k now env e h1' he, he]
    exact ⟨rfl, rfl, rfl, cacheLevel_put_hasKey _ k e.value now, rfl⟩
  · intro h1 h2 h3
    have h1' : entriesFind m.l1.cache k = none :=
      Option.not_isSome_iff_eq_none.mp (by rw [show (entriesFind m.l1.cache k).isSome = m.l1.hasKey k from rfl, h1]; exact Bool.false_ne_true)
    have h2' : entriesFind m.l2.cache k = none :=
      Option.not_isSome_iff_eq_none.mp (by rw [show (entriesFind m.l2.cache k).isSome = m.l2.hasKey k from rfl, h2]; exact Bool.false_ne_true)
    obtain ⟨e, he⟩ := Option.isSome_iff_exists.mp h3
    rw [mlcGet_l3_hit m k now env e h1' h2' he, he]
    exact ⟨rfl, rfl, rfl, cacheLevel_put_hasKey _ k e.value now,
      cacheLevel_put_hasKey _ k e.value now⟩
  · intro h1 h2 h3
    have h1' : entriesFind m.l1.cache k = none :=
      Option.not_isSome_iff_eq_none.mp (by rw [show (entriesFind m.l1.cache k).isSome = m.l1.hasKey k from rfl, h1]; exact Bool.false_ne_true)
    have h2' : entriesFind m.l2.cache k = none :=
      Option.not_isSome_iff_eq_none.mp (by rw [show (entriesFind m.l2.cache k).isSome = m.l2.hasKey k from rfl, h2]; exact Bool.false_ne_true)
    have h3' : entriesFind m.l3.cache k = none :=
      Option.not_isSome_iff_eq_none.mp (by rw [show (entriesFind m.l3.cache k).isSome = m.l3.hasKey k from rfl, h3]; exact Bool.false_ne_true)
    rw [mlcGet_memory m k now env h1' h2' h3']
    exact ⟨rfl, rfl, rfl, rfl, rfl, rfl⟩

/-- Witness for C5: each of the four hierarchy cases exercised on a concrete
cache state. -/
theorem mlc_get_hierarchy_witness :
    (mlcW1.get "k" 1 zeroEnv).1.level = "L1" ∧
    (mlcW2.get "k" 1 zeroEnv).1.level = "L2" ∧
    (mlcW2.get "k" 1 zeroEnv).2.l1.hasKey "k" = true ∧
    (mlcW3.get "k" 1 zeroEnv).1.level = "L3" ∧
    (mlcW0.get "k" 1 zeroEnv).1.hit = false ∧
    (mlcW0.get "k" 1 zeroEnv).1.level = "Memory" := by
  refine ⟨?_, ?_, ?_, ?_, ?_, ?_⟩
  · exact ((mlc_get_hierarchy mlcW1 "k" 1 zeroEnv).1 (by decide)).2.1
  · exact ((mlc_get_hierarchy mlcW2 "k" 1 zeroEnv).2.1 (by decide) (by decide)).2.1
  · exact ((mlc_get_hierarchy mlcW2 "k" 1 zeroEnv).2.1 (by decide) (by decide)).2.2.2.1
  · exact ((mlc_get_hierarchy mlcW3 "k" 1 zeroEnv).2.2.1 (by decide) (by decide)
      (by decide)).2.1
  · exact ((mlc_get_hierarchy mlcW0 "k" 1 zeroEnv).2.2.2 (by decide) (by decide)
      (by decide)).1
  · exact ((mlc_get_hierarchy mlcW0 "k" 1 zeroEnv).2.2.2 (by decide) (by decide)
      (by decide)).2.1

/-- C6: from a cache whose three tiers are all empty, a get of `k` misses at
level `Memory`; a subsequent write-through `put k v` stores `k` in all three
tiers, and the next get of `k` hits at level `L1` with value `v`. -/
theorem mlc_empty_miss_then_put_hit (k : String) (v : Option V)
    (now1 now2 now3 : Nat) (env1 env2 : AccessEnv) :
    ((mkMultiLevelCache (V := V)).get k now1 env1).1.hit = false ∧
    ((mkMultiLevelCache (V := V)).get k now1 env1).1.level = "Memory" ∧
    ((((mkMultiLevelCache (V := V)).get k now1 env1).2.put k v now2).l1.hasKey k = true) ∧
    ((((mkMultiLevelCache (V := V)).get k now1 env1).2.put k v now2).l2.hasKey k = true) ∧
    ((((mkMultiLevelCache (V := V)).get k now1 env1).2.put k v now2).l3.hasKey k = true) ∧
    (((((mkMultiLevelCache (V := V)).get k now1 env1).2.put k v now2).get k now3 env2).1.hit
        = true) ∧
    (((((mkMultiLevelCache (V := V)).get k now1 env1).2.put k v now2).get k now3 env2).1.level
        = "L1") ∧
    (((((mkMultiLevelCache (V := V)).get k now1 env1).2.put k v now2).get k now3 env2).1.value
        = v) := by
  have hfind : entriesFind
      ((((mkMultiLevelCache (V := V)).get k now1 env1).2.put k v now2).l1).cache k
      = some ⟨k, v, now2, 1⟩ := by
    show entriesFind [(⟨k, v, now2, 1⟩ : CacheEntry V)] k = some ⟨k, v, now2, 1⟩
    simp [entriesFind]
  have hget := mlcGet_l1_hit
    (((mkMultiLevelCache (V := V)).get k now1 env1).2.put k v now2) k now3 env2
    ⟨k, v, now2, 1⟩ hfind
  refine ⟨rfl, rfl, cacheLevel_put_hasKey _ k v now2, cacheLevel_put_hasKey _ k v now2,
    cacheLevel_put_hasKey _ k v now2, ?_, ?_, ?_⟩
  · rw [hget]
  · rw [hget]
  · rw [hget]

/-! ## Claims C2, C8, C9: engine counting, error handling and throughput -/

theorem simStep_none_counts (structId : String) (st : LoopState V) (op : String)
    (now : Nat) (env : AccessEnv) (slat : ℚ) (st' : LoopState V)
    (h : simStep structId st op now env slat = (none, st')) :
    st'.hits + st'.misses = st.hits + st.misses + 1 := by
  unfold simStep at h
  rcases hg : st.sim.cache.get op now env with ⟨cres, cache'⟩
  rw [hg] at h
  dsimp only at h
  by_cases hh : cres.hit = true
  · rw [if_pos hh] at h
    obtain ⟨-, rfl⟩ := Prod.mk.injEq .. |>.mp h
    dsimp only
    omega
  · rw [if_neg hh] at h
    rcases hsi : searchInStructure structId
        { bst := st.sim.bst, hashTable := st.sim.hashTable, trie := st.sim.trie,
          cache := cache', isRunning := st.sim.isRunning } op slat with e | pr
    · rw [hsi] at h
      exact absurd (Prod.mk.injEq .. |>.mp h).1 (by simp)
    · rw [hsi] at h
      obtain ⟨sres, sim2⟩ := pr
      dsimp only at h
      obtain ⟨-, rfl⟩ := Prod.mk.injEq .. |>.mp h
      dsimp only
      omega

theorem runLoop_none_counts (structId : String) (ops : List String) :
    ∀ (st : LoopState V) (i : Nat) (tms : Nat → Nat) (envs : Nat → AccessEnv)
      (slats : Nat → ℚ) (st' : LoopState V),
    runLoop structId st ops i tms envs slats = (none, st') →
    st'.hits + st'.misses = st.hits + st.misses + ops.length := by
  induction ops with
  | nil =>
    intro st i tms envs slats st' h
    unfold runLoop at h
    obtain ⟨-, rfl⟩ := Prod.mk.injEq .. |>.mp h
    simp
  | cons op rest ih =>
    intro st i tms envs slats st' h
    unfold runLoop at h
    rcases hs : simStep structId st op (tms i) (envs i) (slats i) with ⟨o, st1⟩
    rw [hs] at h
    cases o with
    | some e => exact absurd (Prod.mk.injEq .. |>.mp h).1 (by simp)
    | none =>
      have hc := simStep_none_counts structId st op (tms i) (envs i) (slats i) st1 hs
      have hr := ih st1 (i + 1) tms envs slats st' h
      simp only [List.length_cons]
      omega

theorem mkSimulationResult_facts (structId : String) (hits misses : Nat)
    (lats : List ℚ) (stats : OverallStats) (totalTime : ℚ) :
    (mkSimulationResult structId hits misses lats stats totalTime).operationsPerformed
        = hits + misses ∧
    (0 < hits + misses →
      (mkSimulationResult structId hits misses lats stats totalTime).hitRate
        + (mkSimulationResult structId hits misses lats stats totalTime).missRate = 100) ∧
    (hits + misses = 0 →
      (mkSimulationResult structId hits misses lats stats totalTime).hitRate = 0 ∧
      (mkSimulationResult structId hits misses lats stats totalTime).missRate = 0) ∧
    0 ≤ (mkSimulationResult structId hits misses lats stats totalTime).throughput ∧
    (totalTime = 0 →
      (mkSimulationResult structId hits misses lats stats totalTime).throughput = 0) ∧
    (mkSimulationResult structId hits misses lats stats totalTime).totalTime
        = totalTime := by
  unfold mkSimulationResult
  dsimp only
  refine ⟨rfl, ?_, ?_, ?_, ?_, rfl⟩
  · intro hpos
    rw [if_pos hpos, if_pos hpos]
    have h0 : (0 : ℚ) < (hits : ℚ) + (misses : ℚ) := by exact_mod_cast hpos
    have hne : ((hits : ℚ) + (misses : ℚ)) ≠ 0 := ne_of_gt h0
    push_cast
    field_simp
    ring
  · intro hz
    have hz' : ¬ 0 < hits + misses := by omega
    rw [if_neg hz', if_neg hz']
    exact ⟨rfl, rfl⟩
  · by_cases hp : 0 < totalTime
    · rw [if_pos hp]
      positivity
    · rw [if_neg hp]
  · intro hz
    rw [if_neg (by rw [hz]; exact lt_irrefl 0)]

/-- C2: for every run that returns a result (completed or cancelled), the
final loop counters satisfy `hits + misses = operationsPerformed`,
`operationsPerformed` is exactly the number of operations processed, the hit
and miss rates sum to exactly 100 whenever at least one operation was
performed, and both rates are 0 for an empty run. -/
theorem simulation_result_counts (structId workloadSize : String)
    (sim : FileAccessSimulator V) (gen : Nat → List String) (steps : Nat)
    (tms : Nat → Nat) (envs : Nat → AccessEnv) (slats : Nat → ℚ) (totalTime : ℚ)
    (res : SimulationResult) (sim' : FileAccessSimulator V)
    (h : runSimulation structId workloadSize sim gen steps tms envs slats totalTime
          = (.ok res, sim')) :
    res.operationsPerformed
        = (simulationTrace structId workloadSize sim gen steps tms envs slats).2.hits
          + (simulationTrace structId workloadSize sim gen steps tms envs slats).2.misses ∧
    res.operationsPerformed = ((gen (getOperationCount workloadSize)).take steps).length ∧
    (0 < res.operationsPerformed → res.hitRate + res.missRate = 100) ∧
    (res.operationsPerformed = 0 → res.hitRate = 0 ∧ res.missRate = 0) := by
  unfold runSimulation at h
  rcases ht : simulationTrace structId workloadSize sim gen steps tms envs slats with ⟨o, st⟩
  rw [ht] at h
  cases o with
  | some e => exact absurd (Prod.mk.injEq .. |>.mp h).1 (by simp)
  | none =>
    dsimp only at h
    obtain ⟨h1, -⟩ := Prod.mk.injEq .. |>.mp h
    obtain rfl : res = mkSimulationResult structId st.hits st.misses st.latencies
        st.sim.cache.getOverallStats totalTime := (Except.ok.injEq .. |>.mp h1).symm
    have hm := mkSimulationResult_facts structId st.hits st.misses st.latencies
        st.sim.cache.getOverallStats totalTime
    have hcount : st.hits + st.misses
        = ((gen (getOperationCount workloadSize)).take steps).length := by
      have hl := runLoop_none_counts structId
        ((gen (getOperationCount workloadSize)).take steps)
        ⟨{ sim with isRunning := true, cache := sim.cache.reset }, 0, 0, []⟩
        0 tms envs slats st (by exact ht)
      simpa using hl
    refine ⟨?_, ?_, ?_, ?_⟩
    · dsimp only
      exact hm.1
    · rw [hm.1]
      exact hcount
    · intro hpos
      exact hm.2.1 (by rw [← hm.1]; exact hpos)
    · intro hz
      exact hm.2.2.1 (by rw [← hm.1]; exact hz)

/-- Witness for C2: a concrete one-operation run has `operationsPerformed = 1`
and rates summing to 100. -/
theorem simulation_result_counts_witness :
    wRes.operationsPerformed = 1 ∧ wRes.hitRate + wRes.missRate = 100 := by
  have h := simulation_result_counts "Hash" "Small" wSim wGen 1 wTms wEnvs wSlats 2
    wRes wRun.2 rfl
  have h1 : wRes.operationsPerformed = 1 := by rw [h.2.1]; rfl
  exact ⟨h1, h.2.2.1 (by rw [h1]; norm_num)⟩

/-- C9: the throughput of every returned result is a nonnegative (finite)
rational, it is 0 whenever the elapsed wall time is 0 (never a division by
zero), and the reported total time is the elapsed wall time. -/
theorem simulation_throughput (structId workloadSize : String)
    (sim : FileAccessSimulator V) (gen : Nat → List String) (steps : Nat)
    (tms : Nat → Nat) (envs : Nat → AccessEnv) (slats : Nat → ℚ) (totalTime : ℚ)
    (res : SimulationResult) (sim' : FileAccessSimulator V)
    (h : runSimulation structId workloadSize sim gen steps tms envs slats totalTime
          = (.ok res, sim')) :
    0 ≤ res.throughput ∧ (res.totalTime = 0 → res.throughput = 0) ∧
    res.totalTime = totalTime := by
  unfold runSimulation at h
  rcases ht : simulationTrace structId workloadSize sim gen steps tms envs slats with ⟨o, st⟩
  rw [ht] at h
  cases o with
  | some e => exact absurd (Prod.mk.injEq .. |>.mp h).1 (by simp)
  | none =>
    dsimp only at h
    obtain ⟨h1, -⟩ := Prod.mk.injEq .. |>.mp h
    obtain rfl : res = mkSimulationResult structId st.hits st.misses st.latencies
        st.sim.cache.getOverallStats totalTime := (Except.ok.injEq .. |>.mp h1).symm
    have hm := mkSimulationResult_facts structId st.hits st.misses st.latencies
        st.sim.cache.getOverallStats totalTime
    exact ⟨hm.2.2.2.1, hm.2.2.2.2.1, hm.2.2.2.2.2⟩
/-- Witness for C9: the concrete run has nonnegative throughput, and the same
run with a degenerate zero elapsed time reports throughput 0. -/
theorem simulation_throughput_witness :
    0 ≤ wRes.throughput ∧ w0Res.throughput = 0 := by
  have h2 := simulation_throughput "Hash" "Small" wSim wGen 1 wTms wEnvs wSlats 2
    wRes wRun.2 rfl
  have h0 := simulation_throughput "Hash" "Small" wSim wGen 1 wTms wEnvs wSlats 0
    w0Res w0Run.2 rfl
  exact ⟨h2.1, h0.2.1 h0.2.2⟩

theorem simStep_unknown (structId : String) (st : LoopState V) (op : String)
    (now : Nat) (env : AccessEnv) (slat : ℚ)
    (h1 : structId ≠ "BST") (h2 : structId ≠ "Hash") (h3 : structId ≠ "Trie")
    (hmiss : (st.sim.cache.get op now env).1.hit = false) :
    (simStep structId st op now env slat).1
        = some ("Unknown structure: " ++ structId) := by
  unfold simStep
  rcases hg : st.sim.cache.get op now env with ⟨cres, cache'⟩
  rw [hg] at hmiss
  dsimp only at hmiss ⊢
  rw [hmiss]
  simp only [Bool.false_eq_true, if_false, searchInStructure,
    if_neg h1, if_neg h2, if_neg h3]

/-- C8 (amended): a run with a structure identifier outside
{BST, Hash, Trie} throws `Unknown structure: ...` — but only from the first
operation's backend lookup, after the cache has been reset and the workload
generated, not before any work starts — and an unrecognized workload size is
never rejected: it silently falls back to the default operation count 1000.
Structure identifiers themselves are never silently defaulted. -/
theorem unknown_structure_error (structId workloadSize : String)
    (sim : FileAccessSimulator V) (gen : Nat → List String) (steps : Nat)
    (tms : Nat → Nat) (envs : Nat → AccessEnv) (slats : Nat → ℚ) (totalTime : ℚ)
    (h1 : structId ≠ "BST") (h2 : structId ≠ "Hash") (h3 : structId ≠ "Trie")
    (h4 : 1 ≤ steps) (h5 : gen (getOperationCount workloadSize) ≠ []) :
    (runSimulation structId workloadSize sim gen steps tms envs slats totalTime).1
        = .error ("Unknown structure: " ++ structId) ∧
    (∀ w : String, w ≠ "Small" → w ≠ "Medium" → w ≠ "Large" →
      getOperationCount w = 1000) := by
  constructor
  · rcases hops : gen (getOperationCount workloadSize) with - | ⟨op, rest⟩
    · exact absurd hops h5
    · obtain ⟨n, rfl⟩ := Nat.exists_eq_add_of_le h4
      simp only [runSimulation, simulationTrace, hops]
      have htake : (op :: rest).take (1 + n) = op :: rest.take n := by
        rw [Nat.add_comm 1 n]
        rfl
      rw [htake]
      unfold runLoop
      rcases hs : simStep structId
          ⟨{ sim with isRunning := true, cache := sim.cache.reset }, 0, 0, []⟩
          op (tms 0) (envs 0) (slats 0) with ⟨o, st1⟩
      have ho : o = some ("Unknown structure: " ++ structId) := by
        have hu := simStep_unknown structId
          ⟨{ sim with isRunning := true, cache := sim.cache.reset }, 0, 0, []⟩
          op (tms 0) (envs 0) (slats 0) h1 h2 h3 rfl
        rw [hs] at hu
        exact hu
      subst ho
      rfl
  · intro w hw1 hw2 hw3
    simp only [getOperationCount, if_neg hw1, if_neg hw2, if_neg hw3]

/-- Witness for C8: a concrete unknown structure identifier and workload
size. -/
theorem unknown_structure_error_witness :
    (runSimulation "Linked" "Huge" wSim wGen 1 wTms wEnvs wSlats 0).1
        = .error ("Unknown structure: " ++ "Linked") ∧
    getOperationCount "Huge" = 1000 := by
  have h := unknown_structure_error "Linked" "Huge" wSim wGen 1 wTms wEnvs wSlats 0
    (by decide) (by decide) (by decide) (le_refl 1) (by decide)
  exact ⟨h.1, h.2 "Huge" (by decide) (by decide) (by decide)⟩

/-- Counterexample to C8 as stated: with an unknown structure identifier the
error is thrown only after work has started — starting from a simulator whose
L1 holds one entry, the failed run's simulator has an empty (reset) L1 with
one recorded miss, so the cache reset, the workload generation and a cache
lookup all preceded the failure; and an unknown workload size is silently
defaulted to the `Small` count instead of being rejected. -/
theorem unknown_structure_not_failfast :
    (runSimulation "Foo" "Huge" cSim wGen 1 wTms wEnvs wSlats 0).1
        = .error ("Unknown structure: " ++ "Foo") ∧
    cSim.cache.l1.cache.length = 1 ∧
    (runSimulation "Foo" "Huge" cSim wGen 1 wTms wEnvs wSlats 0).2.cache.l1.cache.length
        = 0 ∧
    (runSimulation "Foo" "Huge" cSim wGen 1 wTms wEnvs wSlats 0).2.cache.l1.misses = 1 ∧
    getOperationCount "Huge" = getOperationCount "Small" :=
  ⟨rfl, rfl, rfl, rfl, rfl⟩

end Sim
